import Mathlib

/-!
Shallow embedding of the reference-counted buffer engine in
`src/byst/src/buf/arc_buf.rs` of the `byst` repository.

Modelling conventions:
- Machine integers (`usize`) are modelled as `Nat`; the code's `assert!`
  macros are modelled by returning `Option` (`none` = panic).
- The shared mutable per-allocation state (`MetaData.initialized` and the
  byte cells of the allocation) is passed explicitly: byte cells as a
  function `Nat → Nat` from absolute allocation index to byte value, the
  initialized cursor as a `Nat`.
- The packed atomic reference-count word (`AtomicRefCount`) is modelled as
  a `Nat` with pure transition functions returning the new word.
- Rust methods that mutate `self` return the new value of `self` alongside
  their return value.
-/

namespace Byst

/-- Error type `crate::buf::Full` as observed in `arc_buf.rs` (fields
`required` and `capacity`, as constructed in `Writer::fill_with` and
asserted in the repository's tests). -/
structure Full where
  required : Nat
  capacity : Nat
deriving DecidableEq

/-- Error type `IndexOutOfBounds` as constructed in `ArcBufMut::split_at`:
`IndexOutOfBounds { required: at, bounds: (0, filled) }`. -/
structure IndexOutOfBounds where
  required : Nat
  bounds : Nat × Nat
deriving DecidableEq

/-- `RefCount`: read-only observation of the reference-count state. -/
inductive RefCount where
  | Static
  | Counted (ref_count : Nat) (reclaim : Bool)
deriving DecidableEq

/-- The `AtomicRefCount` word packs `(strong_count << 1) | reclaim_bit`.
We model the word itself as a `Nat` and each atomic operation as a pure
function on it. -/
def AtomicRefCount.new (ref_count : Nat) (reclaim : Bool) : Nat :=
  ref_count * 2 + (if reclaim then 1 else 0)

/-- `AtomicRefCount::decrement`: `fetch_sub(2)` then `assert!(old >= 2)`;
returns `MustDrop(old == 2)` together with the new word value.
`none` models the assertion panicking. -/
def AtomicRefCount.decrement (v : Nat) : Option (Bool × Nat) :=
  if 2 ≤ v then some (decide (v = 2), v - 2) else none

/-- `AtomicRefCount::try_reclaim`: `compare_exchange(1, 3)`; returns whether
the CAS succeeded together with the new word value. -/
def AtomicRefCount.try_reclaim (v : Nat) : Bool × Nat :=
  if v = 1 then (true, 3) else (false, v)

/-- `AtomicRefCount::can_reclaim`: `load() == 1`. -/
def AtomicRefCount.can_reclaim (v : Nat) : Bool :=
  decide (v = 1)

/-- `RefCount::from_atomic`: `ref_count = value >> 1`,
`reclaim = value & 1 != 0`. -/
def RefCount.from_word (v : Nat) : RefCount :=
  .Counted (v / 2) (decide (v % 2 = 1))

/-- The `Buffer` allocation descriptor: its length (`buf.len()`) and whether
it is the zero-sized sentinel (`meta_data.is_null()`). The shared mutable
state behind `meta_data` is passed separately. -/
structure Buffer where
  size : Nat
  isSentinel : Bool
deriving DecidableEq

/-- `Buffer::zero_sized()`. -/
def Buffer.zero_sized : Buffer := ⟨0, true⟩

/-- The byte-cells/metadata state shared by all handles of one allocation:
`bytes i` is the value of the cell at absolute index `i`, and `initialized`
is `MetaData.initialized`. -/
structure Memory where
  bytes : Nat → Nat
  initialized : Nat

/-- `BufferRef`: a range-scoped strong reference `[start, end)` into a
`Buffer`, with the tail-authorization flag. -/
structure BufferRef where
  buf : Buffer
  start : Nat
  «end» : Nat
  tail : Bool
deriving DecidableEq

/-- `Default for BufferRef`: the zero-sized sentinel handle, not tail. -/
def BufferRef.default : BufferRef :=
  ⟨Buffer.zero_sized, 0, 0, false⟩

/-- `BufferRef::len`. -/
def BufferRef.len (b : BufferRef) : Nat :=
  b.«end» - b.start

/-- `Buffer::ref_count` as seen through a handle: `Static` iff the metadata
pointer is null, else decoded from the word. -/
def BufferRef.ref_count (b : BufferRef) (word : Nat) : RefCount :=
  if b.buf.isSentinel then .Static else RefCount.from_word word

/-- `BufferRef::split_at(at)`: returns `(returned_handle, new_self)`;
`none` models the `assert!(split_offset <= self.end)` panicking.
Mirrors the source exactly, including comparing the relative offset
against the absolute `self.start` and `self.end`. -/
def BufferRef.split_at (self : BufferRef) (off : Nat) :
    Option (BufferRef × BufferRef) :=
  let split_offset := off + self.start
  if split_offset ≤ self.«end» then
    if off = self.start then
      some (BufferRef.default, self)
    else if off = self.«end» then
      some (self, BufferRef.default)
    else
      some ({ self with «end» := split_offset, tail := false },
            { self with start := split_offset })
  else none

/-- `BufferRef::shrink(start, end)`: narrows the range; an emptied handle is
replaced by the sentinel default. `none` models a failed assertion. -/
def BufferRef.shrink (self : BufferRef) (start' end' : Nat) :
    Option BufferRef :=
  let new_start := self.start + start'
  let new_end := self.start + end'
  if self.start ≤ new_start ∧ new_end ≤ self.«end» ∧ new_start ≤ new_end then
    if new_start = new_end then
      some BufferRef.default
    else
      some { self with start := new_start, «end» := new_end }
  else none

/-- `BufferRef::initialized_end`: tail handles read the shared cursor
(asserting it lies in `[start, end]`); non-tail handles return `end`. -/
def BufferRef.initialized_end (b : BufferRef) (init : Nat) : Option Nat :=
  if b.tail then
    if b.start ≤ init ∧ init ≤ b.«end» then some init else none
  else some b.«end»

/-- `BufferRef::set_initialized_to(to)`: asserts `start + to <= end`; a tail
handle sets the shared cursor to `max(current, start + to)` (asserting the
current cursor lies in `[start, end]`); a non-tail handle is a no-op.
Returns the new cursor value. -/
def BufferRef.set_initialized_to (b : BufferRef) (init : Nat) («to» : Nat) :
    Option Nat :=
  let to' := b.start + «to»
  if to' ≤ b.«end» then
    if b.tail then
      if b.start ≤ init ∧ init ≤ b.«end» then some (max init to') else none
    else some init
  else none

/-- `ArcBuf`: the immutable buffer, wrapping one `BufferRef`. -/
structure ArcBuf where
  inner : BufferRef
deriving DecidableEq

/-- `Length for ArcBuf`: `len = inner.len()`. -/
def ArcBuf.len (b : ArcBuf) : Nat :=
  b.inner.len

/-- `Length::is_empty` (default implementation `len() == 0`). -/
def ArcBuf.is_empty (b : ArcBuf) : Bool :=
  decide (b.len = 0)

/-- `ArcBuf::bytes`: the whole referenced range `[start, end)`, assumed
initialized. -/
def ArcBuf.bytes (b : ArcBuf) (m : Memory) : List Nat :=
  (List.range b.len).map fun j => m.bytes (b.inner.start + j)

/-- `BufReader::peek_chunk for ArcBuf`: `None` when empty, else the whole
byte slice. -/
def ArcBuf.peek_chunk (b : ArcBuf) (m : Memory) : Option (List Nat) :=
  if b.is_empty then none else some (b.bytes m)

/-- `ArcBufMut`: the mutable buffer, wrapping one `BufferRef` plus the
`filled` counter. -/
structure ArcBufMut where
  inner : BufferRef
  filled : Nat
deriving DecidableEq

/-- `Default for ArcBufMut`. -/
def ArcBufMut.default : ArcBufMut :=
  ⟨BufferRef.default, 0⟩

/-- `ArcBufMut::capacity`: `inner.len()`. -/
def ArcBufMut.capacity (b : ArcBufMut) : Nat :=
  b.inner.len

/-- `ArcBufMut::ref_count`. -/
def ArcBufMut.ref_count (b : ArcBufMut) (word : Nat) : RefCount :=
  b.inner.ref_count word

/-- `ArcBufMut::freeze`: shrink the handle to `[0, filled)` and wrap the
result as an `ArcBuf`. -/
def ArcBufMut.freeze (self : ArcBufMut) : Option ArcBuf :=
  (self.inner.shrink 0 self.filled).map fun inner => ⟨inner⟩

/-- `ArcBufMut::split_at(at)`: returns `(result, new_self)`, mirroring the
source's `if`-chain; `none` models a panic inside `BufferRef::split_at`. -/
def ArcBufMut.split_at (self : ArcBufMut) (off : Nat) :
    Option (Except IndexOutOfBounds ArcBufMut × ArcBufMut) :=
  let filled := self.filled
  if off = 0 then
    some (.ok ArcBufMut.default, self)
  else if off = filled then
    some (.ok self, ArcBufMut.default)
  else if off < filled then
    match self.inner.split_at off with
    | none => none
    | some (inner, selfInner) =>
        some (.ok ⟨inner, off⟩, ⟨selfInner, filled - off⟩)
  else
    some (.error ⟨off, (0, filled)⟩, self)

/-- `ArcBufMut::set_filled_to(to)`: asserts `to <= initialized_end - start`
and sets `filled := to`. `none` models the assertion (or the one inside
`initialized_end`) panicking. -/
def ArcBufMut.set_filled_to (self : ArcBufMut) (init : Nat) («to» : Nat) :
    Option ArcBufMut :=
  match self.inner.initialized_end init with
  | none => none
  | some e =>
      if «to» ≤ e - self.inner.start then
        some { self with filled := «to» }
      else none

/-- `Reclaim`: the non-counted reclaim capability, holding the `Buffer`
descriptor. -/
structure Reclaim where
  buf : Buffer
deriving DecidableEq

/-- `Reclaim::try_reclaim`: returns the optional reclaimed buffer together
with the new reference-count word. A sentinel (zero-sized) allocation
trivially yields the default buffer; otherwise the CAS decides. -/
def Reclaim.try_reclaim (self : Reclaim) (word : Nat) :
    Option ArcBufMut × Nat :=
  if self.buf.isSentinel then
    (some ArcBufMut.default, word)
  else
    let r := AtomicRefCount.try_reclaim word
    if r.1 then
      (some ⟨⟨self.buf, 0, self.buf.size, true⟩, 0⟩, r.2)
    else
      (none, r.2)

/-- `Reclaim::can_reclaim`. -/
def Reclaim.can_reclaim (self : Reclaim) (word : Nat) : Bool :=
  if self.buf.isSentinel then true else AtomicRefCount.can_reclaim word

/-- `Writer`: the sequential write cursor over an `ArcBufMut`. -/
structure Writer where
  buf : ArcBufMut
  position : Nat
deriving DecidableEq

/-- `Writer::new`. -/
def Writer.new (buf : ArcBufMut) : Writer :=
  ⟨buf, 0⟩

/-- `Writer::fill_with(length, f)`: if `position + length <= capacity`,
applies `f` to the cell segment `[start+position, start+position+length)`
(`f old j` is the new value of the cell at segment-relative offset `j`,
where `old` is the segment's previous contents), advances the shared
initialized cursor to `position + length`, raises `filled` to
`max(filled, position+length)` and advances `position`; otherwise fails
with `Full { required: length, capacity }`, leaving everything unchanged.
Returns `(optional error, new writer, new memory)`. -/
def Writer.fill_with (w : Writer) (m : Memory) (length : Nat)
    (f : (Nat → Nat) → Nat → Nat) : Option (Option Full × Writer × Memory) :=
  let endp := w.position + length
  if endp ≤ w.buf.capacity then
    let lo := w.buf.inner.start + w.position
    let bytes' := fun i =>
      if lo ≤ i ∧ i < lo + length then f (fun j => m.bytes (lo + j)) (i - lo)
      else m.bytes i
    match w.buf.inner.set_initialized_to m.initialized endp with
    | none => none
    | some init' =>
        some (none,
          ⟨{ w.buf with filled := max w.buf.filled endp }, endp⟩,
          ⟨bytes', init'⟩)
  else
    some (some ⟨length, w.buf.capacity⟩, w, m)

/-- `BufWriter::extend for Writer`: copies `data` via `fill_with`. -/
def Writer.extend (w : Writer) (m : Memory) (data : List Nat) :
    Option (Option Full × Writer × Memory) :=
  w.fill_with m data.length (fun _ j => data.getD j 0)

/-- `BufWriter::advance for Writer`: within already-filled territory just
moves the position; past it, zero-fills the gap via `fill_with`. -/
def Writer.advance (w : Writer) (m : Memory) (by' : Nat) :
    Option (Option Full × Writer × Memory) :=
  let already_filled := w.buf.filled - w.position
  if already_filled < by' then
    w.fill_with m by' (fun old j => if j < already_filled then old j else 0)
  else
    some (none, ⟨w.buf, w.position + by'⟩, m)

/-- A concrete memory state used for witnesses: cell `i` holds `i`, the
initialized cursor is at `20`. -/
def exampleMemory : Memory := ⟨fun i => i, 20⟩

/-- The left half of a capacity-20 buffer filled with 20 bytes after
`split_at(5)`: range `[0, 5)`, not tail, `filled = 5`. -/
def exampleLeftWriter : Writer := ⟨⟨⟨⟨20, false⟩, 0, 5, false⟩, 5⟩, 0⟩

/-- The byte string `"Spill much?"` (11 bytes). -/
def exampleData : List Nat := [83, 112, 105, 108, 108, 32, 109, 117, 99, 104, 63]

/-- A tail writer over a capacity-10 buffer with `filled = 4`, cursor at
position 2. -/
def exampleTailWriter : Writer := ⟨⟨⟨⟨10, false⟩, 0, 10, true⟩, 4⟩, 2⟩

/-- Memory for `exampleTailWriter`: cell `i` holds `i + 1`, initialized up
to 4. -/
def exampleMemory4 : Memory := ⟨fun i => i + 1, 4⟩

example : BufferRef.split_at ⟨⟨20, false⟩, 0, 20, true⟩ 5 =
    some (⟨⟨20, false⟩, 0, 5, false⟩, ⟨⟨20, false⟩, 5, 20, true⟩) := by decide

example : BufferRef.split_at ⟨⟨20, false⟩, 5, 20, true⟩ 5 =
    some (BufferRef.default, ⟨⟨20, false⟩, 5, 20, true⟩) := by decide

/-- C1 (code bug): `BufferRef::split_at` compares its caller-relative
offset against the absolute `self.start` and `self.end`. Evaluated at the
handle `[5, 20)` (the right half kept after splitting a 20-byte buffer at
5), `split_at(5)` returns the zero-length sentinel default handle and
leaves `self` covering `[5, 20)`, although the claim (and the function's
own documentation, `returns [..at)`) requires a handle over `[5, 10)` and
`self` shrunk to `[10, 20)`; and `split_at(0)` returns a non-sentinel
zero-length clone instead of the default sentinel handle. -/
theorem bufferRef_split_at_bug_eval :
    (BufferRef.split_at ⟨⟨20, false⟩, 5, 20, true⟩ 5 =
        some (BufferRef.default, ⟨⟨20, false⟩, 5, 20, true⟩) ∧
      BufferRef.default.len = 0 ∧
      BufferRef.default.buf.isSentinel = true) ∧
    (BufferRef.split_at ⟨⟨20, false⟩, 5, 20, true⟩ 0 =
        some (⟨⟨20, false⟩, 5, 5, false⟩, ⟨⟨20, false⟩, 5, 20, true⟩) ∧
      (⟨⟨20, false⟩, 5, 5, false⟩ : BufferRef).buf.isSentinel = false) := by
  decide

/-- C2: `ArcBufMut::split_at(at)`: `at == 0` returns the default (Static,
sentinel-backed, empty) buffer without touching `self`; `at == filled`
(nonzero) moves the whole of `self` out, leaving `self` as the default;
`0 < at < filled` apportions `filled` as `at` to the returned left half
and `filled - at` to the retained right half; `at > filled` errors with
the requested offset and bounds `(0, filled)`, leaving `self` unchanged. -/
theorem arcBufMut_split_at_spec (self : ArcBufMut) (off : Nat)
    (hwf : self.filled ≤ self.capacity) :
    (off = 0 → self.split_at off = some (.ok ArcBufMut.default, self)) ∧
    (0 < off → off = self.filled →
      self.split_at off = some (.ok self, ArcBufMut.default)) ∧
    (0 < off → off < self.filled →
      ∃ l r, self.split_at off = some (.ok l, r) ∧
        l.filled = off ∧ r.filled = self.filled - off) ∧
    (self.filled < off →
      self.split_at off = some (.error ⟨off, (0, self.filled)⟩, self)) ∧
    (ArcBufMut.default.filled = 0 ∧
      ArcBufMut.default.inner.buf.isSentinel = true) := by
  refine ⟨?_, ?_, ?_, ?_, rfl, rfl⟩
  · intro h
    subst h
    simp [ArcBufMut.split_at]
  · intro h0 he
    simp only [ArcBufMut.split_at]
    rw [if_neg (by omega), if_pos he]
  · intro h0 hlt
    have hle : off + self.inner.start ≤ self.inner.«end» := by
      unfold ArcBufMut.capacity BufferRef.len at hwf
      omega
    simp only [ArcBufMut.split_at]
    rw [if_neg (by omega), if_neg (by omega), if_pos hlt]
    simp only [BufferRef.split_at]
    rw [if_pos hle]
    by_cases h1 : off = self.inner.start
    · rw [if_pos h1]
      exact ⟨_, _, rfl, rfl, rfl⟩
    · rw [if_neg h1]
      by_cases h2 : off = self.inner.«end»
      · rw [if_pos h2]
        exact ⟨_, _, rfl, rfl, rfl⟩
      · rw [if_neg h2]
        exact ⟨_, _, rfl, rfl, rfl⟩
  · intro h
    simp only [ArcBufMut.split_at]
    rw [if_neg (by omega), if_neg (by omega), if_neg (by omega)]

/-- Witness for C2: a full capacity-20 buffer split at 5 yields halves with
`filled` 5 and 15, and split at 25 errors with bounds `(0, 20)`. -/
theorem arcBufMut_split_at_spec_witness :
    (∃ l r, ArcBufMut.split_at ⟨⟨⟨20, false⟩, 0, 20, true⟩, 20⟩ 5 =
        some (.ok l, r) ∧ l.filled = 5 ∧ r.filled = 20 - 5) ∧
    ArcBufMut.split_at ⟨⟨⟨20, false⟩, 0, 20, true⟩, 20⟩ 25 =
      some (.error ⟨25, (0, 20)⟩, ⟨⟨⟨20, false⟩, 0, 20, true⟩, 20⟩) := by
  constructor
  · exact (arcBufMut_split_at_spec ⟨⟨⟨20, false⟩, 0, 20, true⟩, 20⟩ 5
      (by decide)).2.2.1 (by decide) (by decide)
  · exact (arcBufMut_split_at_spec ⟨⟨⟨20, false⟩, 0, 20, true⟩, 20⟩ 25
      (by decide)).2.2.2.1 (by decide)

/-- C3 (counterexample): at the packed word `3` (strong count 1, reclaim
bit set), `decrement` lowers the strong count to `0` but returns `false`,
not `true`: the claim "returns true iff the resulting strong count is 0"
fails when the reclaim flag is set. -/
theorem atomicRefCount_decrement_counterexample :
    AtomicRefCount.decrement (AtomicRefCount.new 1 true) = some (false, 1) ∧
    RefCount.from_word 1 = .Counted 0 true := by
  decide

/-- C3 (amended): for every prior word with strong count at least 1,
`decrement` subtracts 2, returns `true` iff the resulting packed word is 0
(strong count 0 *and* reclaim flag clear), and preserves the reclaim bit
(no underflow into it). -/
theorem atomicRefCount_decrement_amended (v : Nat) (h : 1 ≤ v / 2) :
    ∃ b w, AtomicRefCount.decrement v = some (b, w) ∧ w = v - 2 ∧
      (b = true ↔ w = 0) ∧ w % 2 = v % 2 := by
  have h2 : 2 ≤ v := by omega
  refine ⟨decide (v = 2), v - 2, ?_, rfl, ?_, ?_⟩
  · simp only [AtomicRefCount.decrement, if_pos h2]
  · simp only [decide_eq_true_eq]
    omega
  · omega

/-- Witness for C3's amended theorem at the word `2` (strong 1, no
reclaim): decrement yields `true` and word 0. -/
theorem atomicRefCount_decrement_amended_witness :
    ∃ b w, AtomicRefCount.decrement 2 = some (b, w) ∧ w = 2 - 2 ∧
      (b = true ↔ w = 0) ∧ w % 2 = 2 % 2 :=
  atomicRefCount_decrement_amended 2 (by decide)

/-- C4: over a non-sentinel allocation, `Reclaim::try_reclaim` succeeds
exactly when the packed word equals 1, CAS-ing it to 3 and returning a
full-range, tail, `filled = 0` buffer whose observed reference count is
`Counted { ref_count: 1, reclaim: true }`; `can_reclaim` is `false`
whenever any strong handle is alive (strong count at least 1). Over a
sentinel (zero-sized) allocation, `try_reclaim` always returns the default
buffer and `can_reclaim` is always `true`. -/
theorem reclaim_try_reclaim_spec (r : Reclaim) (word : Nat) :
    (r.buf.isSentinel = false →
      (word = 1 →
        r.try_reclaim word = (some ⟨⟨r.buf, 0, r.buf.size, true⟩, 0⟩, 3) ∧
        ArcBufMut.ref_count ⟨⟨r.buf, 0, r.buf.size, true⟩, 0⟩ 3 =
          .Counted 1 true ∧
        BufferRef.len ⟨r.buf, 0, r.buf.size, true⟩ = r.buf.size) ∧
      (word ≠ 1 → r.try_reclaim word = (none, word)) ∧
      (∀ strong rb, 1 ≤ strong → word = AtomicRefCount.new strong rb →
        r.can_reclaim word = false)) ∧
    (r.buf.isSentinel = true →
      r.try_reclaim word = (some ArcBufMut.default, word) ∧
      r.can_reclaim word = true) := by
  constructor
  · intro hs
    refine ⟨?_, ?_, ?_⟩
    · intro hw
      subst hw
      refine ⟨?_, ?_, ?_⟩
      · simp [Reclaim.try_reclaim, AtomicRefCount.try_reclaim, hs]
      · simp [ArcBufMut.ref_count, BufferRef.ref_count, RefCount.from_word, hs]
      · simp [BufferRef.len]
    · intro hw
      simp [Reclaim.try_reclaim, AtomicRefCount.try_reclaim, hs, hw]
    · intro strong rb hstrong hword
      have hne : word ≠ 1 := by
        subst hword
        unfold AtomicRefCount.new
        rcases rb
        · intro hcontra
          simp only [Bool.false_eq_true, if_false] at hcontra
          omega
        · intro hcontra
          simp only [if_true] at hcontra
          omega
      simp [Reclaim.can_reclaim, AtomicRefCount.can_reclaim, hs, hne]
  · intro hs
    constructor
    · simp [Reclaim.try_reclaim, hs]
    · simp [Reclaim.can_reclaim, hs]

/-- Witness for C4: a 4-byte reclaimable allocation whose word is 1 (no
strong handles, reclaim bit set) is reclaimed to a full-range tail buffer;
with word `AtomicRefCount.new 1 true = 3` it cannot be reclaimed; a
sentinel allocation always reclaims trivially. -/
theorem reclaim_try_reclaim_spec_witness :
    (Reclaim.try_reclaim ⟨⟨4, false⟩⟩ 1 =
        (some ⟨⟨⟨4, false⟩, 0, 4, true⟩, 0⟩, 3) ∧
      ArcBufMut.ref_count ⟨⟨⟨4, false⟩, 0, 4, true⟩, 0⟩ 3 = .Counted 1 true) ∧
    Reclaim.can_reclaim ⟨⟨4, false⟩⟩ (AtomicRefCount.new 1 true) = false ∧
    Reclaim.try_reclaim ⟨⟨0, true⟩⟩ 0 = (some ArcBufMut.default, 0) := by
  refine ⟨⟨?_, ?_⟩, ?_, ?_⟩
  · exact (((reclaim_try_reclaim_spec ⟨⟨4, false⟩⟩ 1).1 rfl).1 rfl).1
  · exact (((reclaim_try_reclaim_spec ⟨⟨4, false⟩⟩ 1).1 rfl).1 rfl).2.1
  · exact ((reclaim_try_reclaim_spec ⟨⟨4, false⟩⟩
      (AtomicRefCount.new 1 true)).1 rfl).2.2 1 true (by decide) rfl
  · exact ((reclaim_try_reclaim_spec ⟨⟨0, true⟩⟩ 0).2 rfl).1

/-- C10: `ArcBuf::peek_chunk` returns `None` iff the buffer is empty, and
otherwise one contiguous slice that is the entire remaining content, of
length `len()`. -/
theorem arcBuf_peek_chunk_spec (b : ArcBuf) (m : Memory) :
    (b.peek_chunk m = none ↔ b.len = 0) ∧
    (∀ c, b.peek_chunk m = some c → c = b.bytes m ∧ c.length = b.len) := by
  constructor
  · by_cases h : b.len = 0
    · simp [ArcBuf.peek_chunk, ArcBuf.is_empty, h]
    · simp [ArcBuf.peek_chunk, ArcBuf.is_empty, h]
  · intro c hc
    simp only [ArcBuf.peek_chunk, ArcBuf.is_empty] at hc
    by_cases h : b.len = 0
    · rw [if_pos (by simpa using h)] at hc
      cases hc
    · rw [if_neg (by simpa using h)] at hc
      cases hc
      exact ⟨rfl, by simp [ArcBuf.bytes]⟩

/-- Witness for C10 on the view `[2, 5)` of a 20-byte allocation whose cell
`i` holds `i`: the peeked chunk is `[2, 3, 4]`, of length `len() = 3`. -/
theorem arcBuf_peek_chunk_spec_witness :
    ([2, 3, 4] : List Nat) =
        ArcBuf.bytes ⟨⟨⟨20, false⟩, 2, 5, false⟩⟩ exampleMemory ∧
    ([2, 3, 4] : List Nat).length = ArcBuf.len ⟨⟨⟨20, false⟩, 2, 5, false⟩⟩ :=
  (arcBuf_peek_chunk_spec ⟨⟨⟨20, false⟩, 2, 5, false⟩⟩ exampleMemory).2
    [2, 3, 4] (by decide)

/-- C5: shrinking a `BufferRef` to a zero-length range (here `start' = end'`,
over any handle, however large or shared its allocation) yields the Static
sentinel default handle (no metadata, not tail); consequently `freeze`
shrinks to `[0, filled)`, yielding an `ArcBuf` of length `filled`, and a
buffer with `filled = 0` freezes to the Static default regardless of
capacity. -/
theorem shrink_freeze_spec (b : BufferRef) (s e : Nat) (a : ArcBufMut)
    (hshr : b.start + e ≤ b.«end») (hse : s = e)
    (hfs : a.filled ≤ a.capacity) (hstart : a.inner.start ≤ a.inner.«end») :
    b.shrink s e = some BufferRef.default ∧
    BufferRef.default.buf.isSentinel = true ∧
    BufferRef.default.tail = false ∧
    ∃ fz, a.freeze = some fz ∧ fz.len = a.filled ∧
      (a.filled = 0 → fz.inner = BufferRef.default) := by
  refine ⟨?_, rfl, rfl, ?_⟩
  · subst hse
    simp only [BufferRef.shrink]
    rw [if_pos ⟨Nat.le_add_right _ _, hshr, le_refl _⟩]
    simp
  · have hcap : a.inner.start + a.filled ≤ a.inner.«end» := by
      unfold ArcBufMut.capacity BufferRef.len at hfs
      omega
    simp only [ArcBufMut.freeze, BufferRef.shrink]
    rw [if_pos ⟨Nat.le_add_right _ _, hcap, by omega⟩]
    by_cases h0 : a.filled = 0
    · rw [if_pos (by omega)]
      exact ⟨_, rfl, by simp [ArcBuf.len, BufferRef.default,
        Buffer.zero_sized, BufferRef.len, h0], fun _ => rfl⟩
    · rw [if_neg (by omega)]
      refine ⟨_, rfl, ?_, fun hc => absurd hc h0⟩
      simp only [ArcBuf.len, BufferRef.len]
      omega

/-- Witness for C5: a handle `[2, 8)` of a 10-byte allocation shrunk to the
empty range at relative offset 3 becomes the sentinel default, and a
capacity-10 buffer with 4 filled bytes freezes to a 4-byte `ArcBuf`. -/
theorem shrink_freeze_spec_witness :
    BufferRef.shrink ⟨⟨10, false⟩, 2, 8, false⟩ 3 3 = some BufferRef.default ∧
    BufferRef.default.buf.isSentinel = true ∧
    BufferRef.default.tail = false ∧
    ∃ fz, ArcBufMut.freeze ⟨⟨⟨10, false⟩, 0, 10, true⟩, 4⟩ = some fz ∧
      fz.len = 4 ∧
      (ArcBufMut.filled ⟨⟨⟨10, false⟩, 0, 10, true⟩, 4⟩ = 0 →
        fz.inner = BufferRef.default) :=
  shrink_freeze_spec ⟨⟨10, false⟩, 2, 8, false⟩ 3 3
    ⟨⟨⟨10, false⟩, 0, 10, true⟩, 4⟩ (by decide) rfl (by decide) (by decide)

/-- C7: `set_initialized_to(to)` requires `start + to <= end` (panics
otherwise); on a tail handle it sets the shared cursor to
`max(current, start + to)` — monotonically non-decreasing and staying
within `[start, end]` — and on a non-tail handle it is a no-op, whose
`initialized_end()` is always its `end`. -/
theorem initialized_boundary_spec (b : BufferRef) (init t : Nat) :
    (b.start + t ≤ b.«end» → b.tail = true → b.start ≤ init →
      init ≤ b.«end» →
      b.set_initialized_to init t = some (max init (b.start + t)) ∧
      init ≤ max init (b.start + t) ∧
      b.start ≤ max init (b.start + t) ∧
      max init (b.start + t) ≤ b.«end») ∧
    (b.start + t ≤ b.«end» → b.tail = false →
      b.set_initialized_to init t = some init ∧
      b.initialized_end init = some b.«end») ∧
    (b.«end» < b.start + t → b.set_initialized_to init t = none) := by
  refine ⟨?_, ?_, ?_⟩
  · intro hle htail h1 h2
    refine ⟨?_, le_max_left _ _, le_trans h1 (le_max_left _ _),
      max_le h2 hle⟩
    simp only [BufferRef.set_initialized_to]
    rw [if_pos hle, if_pos htail, if_pos ⟨h1, h2⟩]
  · intro hle htail
    constructor
    · simp only [BufferRef.set_initialized_to]
      rw [if_pos hle, if_neg (by simp [htail])]
    · simp only [BufferRef.initialized_end]
      rw [if_neg (by simp [htail])]
  · intro hgt
    simp only [BufferRef.set_initialized_to]
    rw [if_neg (by omega)]

/-- Witness for C7: on the tail handle `[0, 10)` with cursor 3,
`set_initialized_to(5)` moves the cursor to `max 3 5 = 5`, within bounds;
on the non-tail handle `[0, 5)` it is a no-op and `initialized_end` is 5. -/
theorem initialized_boundary_spec_witness :
    (BufferRef.set_initialized_to ⟨⟨10, false⟩, 0, 10, true⟩ 3 5 =
        some (max 3 (0 + 5)) ∧
      3 ≤ max 3 (0 + 5) ∧ 0 ≤ max 3 (0 + 5) ∧ max 3 (0 + 5) ≤ 10) ∧
    (BufferRef.set_initialized_to ⟨⟨10, false⟩, 0, 5, false⟩ 3 5 =
        some 3 ∧
      BufferRef.initialized_end ⟨⟨10, false⟩, 0, 5, false⟩ 3 = some 5) := by
  constructor
  · exact (initialized_boundary_spec ⟨⟨10, false⟩, 0, 10, true⟩ 3 5).1
      (by decide) rfl (by decide) (by decide)
  · exact (initialized_boundary_spec ⟨⟨10, false⟩, 0, 5, false⟩ 3 5).2.1
      (by decide) rfl

/-- C9: `set_filled_to(to)` sets `filled` to exactly `to` for every `to` at
most the initialized length (`initialized_end - start`), including lowering
it below the current `filled`, and panics precisely when `to` exceeds the
initialized length. -/
theorem set_filled_to_spec (a : ArcBufMut) (init t : Nat)
    (h : a.inner.tail = true →
      a.inner.start ≤ init ∧ init ≤ a.inner.«end») :
    ∃ e, a.inner.initialized_end init = some e ∧
      (t ≤ e - a.inner.start →
        a.set_filled_to init t = some { a with filled := t }) ∧
      (e - a.inner.start < t → a.set_filled_to init t = none) := by
  cases htail : a.inner.tail
  · refine ⟨a.inner.«end», ?_, ?_, ?_⟩
    · simp only [BufferRef.initialized_end]
      rw [if_neg (by simp [htail])]
    · intro hle
      simp only [ArcBufMut.set_filled_to, BufferRef.initialized_end]
      rw [if_neg (by simp [htail])]
      simp only [if_pos hle]
    · intro hgt
      simp only [ArcBufMut.set_filled_to, BufferRef.initialized_end]
      rw [if_neg (by simp [htail])]
      simp only [if_neg (by omega : ¬ t ≤ a.inner.«end» - a.inner.start)]
  · obtain ⟨h1, h2⟩ := h htail
    refine ⟨init, ?_, ?_, ?_⟩
    · simp only [BufferRef.initialized_end]
      rw [if_pos htail, if_pos ⟨h1, h2⟩]
    · intro hle
      simp only [ArcBufMut.set_filled_to, BufferRef.initialized_end]
      rw [if_pos htail, if_pos ⟨h1, h2⟩]
      simp only [if_pos hle]
    · intro hgt
      simp only [ArcBufMut.set_filled_to, BufferRef.initialized_end]
      rw [if_pos htail, if_pos ⟨h1, h2⟩]
      simp only [if_neg (by omega : ¬ t ≤ init - a.inner.start)]

/-- Witness for C9: a tail buffer `[0, 10)` with `filled = 7` and
initialized cursor 8: `set_filled_to(3)` lowers `filled` to 3 (3 is at most
the initialized length 8). -/
theorem set_filled_to_spec_witness :
    ∃ e, BufferRef.initialized_end ⟨⟨10, false⟩, 0, 10, true⟩ 8 = some e ∧
      (3 ≤ e - 0 →
        ArcBufMut.set_filled_to ⟨⟨⟨10, false⟩, 0, 10, true⟩, 7⟩ 8 3 =
          some ⟨⟨⟨10, false⟩, 0, 10, true⟩, 3⟩) ∧
      (e - 0 < 3 →
        ArcBufMut.set_filled_to ⟨⟨⟨10, false⟩, 0, 10, true⟩, 7⟩ 8 3 = none) :=
  set_filled_to_spec ⟨⟨⟨10, false⟩, 0, 10, true⟩, 7⟩ 8 3 (by decide)

/-- Helper: under the handle invariants, `set_initialized_to` does not
panic. -/
theorem set_initialized_to_isSome (b : BufferRef) (init t : Nat)
    (hle : b.start + t ≤ b.«end»)
    (hinit : b.tail = true → b.start ≤ init ∧ init ≤ b.«end») :
    ∃ i', b.set_initialized_to init t = some i' := by
  simp only [BufferRef.set_initialized_to]
  rw [if_pos hle]
  cases htail : b.tail
  · rw [if_neg (by simp)]
    exact ⟨init, rfl⟩
  · obtain ⟨h1, h2⟩ := hinit htail
    rw [if_pos rfl, if_pos ⟨h1, h2⟩]
    exact ⟨_, rfl⟩

/-- Helper: the success case of `Writer::fill_with` in closed form: the new
writer has `filled = max filled (position + length)` and `position` at the
end of the write, and the new memory applies `f` on the written window and
is unchanged elsewhere. -/
theorem fill_with_ok (w : Writer) (m : Memory) (length : Nat)
    (f : (Nat → Nat) → Nat → Nat)
    (hcap : w.position + length ≤ w.buf.capacity)
    (hse : w.buf.inner.start ≤ w.buf.inner.«end»)
    (hinit : w.buf.inner.tail = true →
      w.buf.inner.start ≤ m.initialized ∧
      m.initialized ≤ w.buf.inner.«end») :
    ∃ init', w.fill_with m length f =
      some (none,
        ⟨{ w.buf with filled := max w.buf.filled (w.position + length) },
          w.position + length⟩,
        ⟨fun i =>
          if w.buf.inner.start + w.position ≤ i ∧
              i < w.buf.inner.start + w.position + length
          then f (fun j => m.bytes (w.buf.inner.start + w.position + j))
                 (i - (w.buf.inner.start + w.position))
          else m.bytes i,
          init'⟩) := by
  have hle : w.buf.inner.start + (w.position + length) ≤
      w.buf.inner.«end» := by
    unfold ArcBufMut.capacity BufferRef.len at hcap
    omega
  obtain ⟨i', hi'⟩ := set_initialized_to_isSome w.buf.inner m.initialized
    (w.position + length) hle hinit
  refine ⟨i', ?_⟩
  simp only [Writer.fill_with]
  rw [if_pos hcap, hi']

/-- C6: after a split, writing through a `Writer` into one half never
mutates bytes visible through the other half: a successful `extend` writes
only inside the half's own window `[start + position, start + position +
n)` (contained in the half's `[start, end)`), and an `extend` of `n` bytes
with `position + n` exceeding the half's capacity fails with
`Full { required: n, capacity }`, leaving the writer and the memory —
hence the contents and filled lengths of both halves — unchanged. -/
theorem writer_extend_isolation (w : Writer) (m : Memory) (data : List Nat)
    (hse : w.buf.inner.start ≤ w.buf.inner.«end»)
    (hinit : w.buf.inner.tail = true →
      w.buf.inner.start ≤ m.initialized ∧
      m.initialized ≤ w.buf.inner.«end») :
    (w.buf.capacity < w.position + data.length →
      w.extend m data =
        some (some ⟨data.length, w.buf.capacity⟩, w, m)) ∧
    (w.position + data.length ≤ w.buf.capacity →
      ∃ w' m', w.extend m data = some (none, w', m') ∧
        w'.buf.inner = w.buf.inner ∧
        w'.buf.filled = max w.buf.filled (w.position + data.length) ∧
        (∀ i, i < w.buf.inner.start + w.position ∨
              w.buf.inner.start + w.position + data.length ≤ i →
          m'.bytes i = m.bytes i) ∧
        (∀ i, i < w.buf.inner.start ∨ w.buf.inner.«end» ≤ i →
          m'.bytes i = m.bytes i)) := by
  constructor
  · intro hover
    simp only [Writer.extend, Writer.fill_with]
    rw [if_neg (by omega)]
  · intro hcap
    obtain ⟨i', hok⟩ := fill_with_ok w m data.length
      (fun _ j => data.getD j 0) hcap hse hinit
    have hwin : w.buf.inner.start + (w.position + data.length) ≤
        w.buf.inner.«end» := by
      unfold ArcBufMut.capacity BufferRef.len at hcap
      omega
    refine ⟨⟨{ w.buf with
        filled := max w.buf.filled (w.position + data.length) },
        w.position + data.length⟩,
      ⟨fun i =>
        if w.buf.inner.start + w.position ≤ i ∧
            i < w.buf.inner.start + w.position + data.length
        then data.getD (i - (w.buf.inner.start + w.position)) 0
        else m.bytes i, i'⟩, ?_, rfl, rfl, ?_, ?_⟩
    · simp only [Writer.extend]
      exact hok
    · intro i hi
      show (if w.buf.inner.start + w.position ≤ i ∧
            i < w.buf.inner.start + w.position + data.length
          then data.getD (i - (w.buf.inner.start + w.position)) 0
          else m.bytes i) = m.bytes i
      rw [if_neg (by omega)]
    · intro i hi
      show (if w.buf.inner.start + w.position ≤ i ∧
            i < w.buf.inner.start + w.position + data.length
          then data.getD (i - (w.buf.inner.start + w.position)) 0
          else m.bytes i) = m.bytes i
      rw [if_neg (by omega)]

/-- Witness for C6, the spec's own example: the left half of a split
(range `[0, 5)`, `filled = 5`, so capacity 5) with a fresh writer rejects
an 11-byte write with `Full { required: 11, capacity: 5 }`, leaving the
writer and the shared memory unchanged. -/
theorem writer_extend_isolation_witness :
    Writer.extend exampleLeftWriter exampleMemory exampleData =
      some (some ⟨11, 5⟩, exampleLeftWriter, exampleMemory) :=
  (writer_extend_isolation exampleLeftWriter exampleMemory exampleData
    (by decide) (by intro h; cases h)).1 (by decide)

/-- C8: `Writer::advance(by)` with `by` at most `filled - position` only
moves the position, leaving the buffer and memory untouched; with `by`
greater it zero-fills exactly the gap `[filled, position + by)` (relative
to the handle's start), leaves all other bytes unchanged, raises `filled`
to `position + by` and moves the position there, and fails with `Full` if
and only if `position + by` exceeds the capacity. -/
theorem writer_advance_spec (w : Writer) (m : Memory) (by' : Nat)
    (hpos : w.position ≤ w.buf.filled)
    (_hfill : w.buf.filled ≤ w.buf.capacity)
    (hse : w.buf.inner.start ≤ w.buf.inner.«end»)
    (hinit : w.buf.inner.tail = true →
      w.buf.inner.start ≤ m.initialized ∧
      m.initialized ≤ w.buf.inner.«end») :
    (by' ≤ w.buf.filled - w.position →
      w.advance m by' = some (none, ⟨w.buf, w.position + by'⟩, m)) ∧
    (w.buf.filled - w.position < by' → w.position + by' ≤ w.buf.capacity →
      ∃ w' m', w.advance m by' = some (none, w', m') ∧
        w'.position = w.position + by' ∧
        w'.buf.filled = w.position + by' ∧
        w'.buf.inner = w.buf.inner ∧
        (∀ j, w.buf.filled ≤ j → j < w.position + by' →
          m'.bytes (w.buf.inner.start + j) = 0) ∧
        (∀ i, i < w.buf.inner.start + w.buf.filled ∨
              w.buf.inner.start + w.position + by' ≤ i →
          m'.bytes i = m.bytes i)) ∧
    (w.buf.filled - w.position < by' → w.buf.capacity < w.position + by' →
      w.advance m by' = some (some ⟨by', w.buf.capacity⟩, w, m)) := by
  refine ⟨?_, ?_, ?_⟩
  · intro hby
    simp only [Writer.advance]
    rw [if_neg (by omega)]
  · intro hby hcap
    obtain ⟨i', hok⟩ := fill_with_ok w m by'
      (fun old j => if j < w.buf.filled - w.position then old j else 0)
      hcap hse hinit
    refine ⟨⟨{ w.buf with filled := max w.buf.filled (w.position + by') },
        w.position + by'⟩,
      ⟨fun i =>
        if w.buf.inner.start + w.position ≤ i ∧
            i < w.buf.inner.start + w.position + by'
        then
          if i - (w.buf.inner.start + w.position) <
              w.buf.filled - w.position
          then m.bytes (w.buf.inner.start + w.position +
            (i - (w.buf.inner.start + w.position)))
          else 0
        else m.bytes i, i'⟩, ?_, ?_, ?_, ?_, ?_, ?_⟩
    · simp only [Writer.advance]
      rw [if_pos hby]
      exact hok
    · rfl
    · show max w.buf.filled (w.position + by') = w.position + by'
      omega
    · rfl
    · intro j hj1 hj2
      show (if w.buf.inner.start + w.position ≤ w.buf.inner.start + j ∧
            w.buf.inner.start + j <
              w.buf.inner.start + w.position + by'
          then
            if w.buf.inner.start + j - (w.buf.inner.start + w.position) <
                w.buf.filled - w.position
            then m.bytes (w.buf.inner.start + w.position +
              (w.buf.inner.start + j - (w.buf.inner.start + w.position)))
            else 0
          else m.bytes (w.buf.inner.start + j)) = 0
      rw [if_pos (by omega), if_neg (by omega)]
    · intro i hi
      show (if w.buf.inner.start + w.position ≤ i ∧
            i < w.buf.inner.start + w.position + by'
          then
            if i - (w.buf.inner.start + w.position) <
                w.buf.filled - w.position
            then m.bytes (w.buf.inner.start + w.position +
              (i - (w.buf.inner.start + w.position)))
            else 0
          else m.bytes i) = m.bytes i
      by_cases hwin : w.buf.inner.start + w.position ≤ i ∧
          i < w.buf.inner.start + w.position + by'
      · rw [if_pos hwin, if_pos (by omega)]
        congr 1
        omega
      · rw [if_neg hwin]
  · intro hby hover
    simp only [Writer.advance]
    rw [if_pos hby]
    simp only [Writer.fill_with]
    rw [if_neg (by omega)]

/-- Witness for C8: over a capacity-10 tail buffer with `filled = 4` and
write position 2, `advance(5)` zero-fills bytes 4..6, leaves bytes 0..3
and 7..9 unchanged, and sets `filled` and `position` to 7. -/
theorem writer_advance_spec_witness :
    ∃ w' m', Writer.advance exampleTailWriter exampleMemory4 5 =
        some (none, w', m') ∧
      w'.position = 2 + 5 ∧
      w'.buf.filled = 2 + 5 ∧
      w'.buf.inner = ⟨⟨10, false⟩, 0, 10, true⟩ ∧
      (∀ j, 4 ≤ j → j < 2 + 5 → m'.bytes (0 + j) = 0) ∧
      (∀ i, i < 0 + 4 ∨ 0 + 2 + 5 ≤ i →
        m'.bytes i = exampleMemory4.bytes i) :=
  (writer_advance_spec exampleTailWriter exampleMemory4 5 (by decide)
    (by decide) (by decide) (by intro h; exact ⟨by decide, by decide⟩)).2.1
    (by decide) (by decide)

end Byst
